import Mathlib

/-!
A shallow embedding of the rlox bytecode interpreter (scanner/compiler/VM in
Rust) and proofs about it.  Rust `f64` numbers are modelled by `Int` (every
program studied here computes only small integers, which `f64` represents
exactly); Rust `Vec` becomes `List` in the same element order; the `HashMap`
globals table becomes an association list with `insert`-replaces semantics;
output sinks become accumulated `String`s / `List String`s.  Rust indexing
panics are out of reach in every use below (all accesses are in bounds), so
list indexing uses `getD` with an irrelevant default.
-/

set_option maxRecDepth 10000

namespace Rlox

/-- A single quote character, used inside diagnostic message strings. -/
def sq : String := String.singleton (Char.ofNat 39)

/-! ## String interner (src/string_intern.rs)

`StringInterner` holds `map: HashMap<&str, StrId>` and `vec: Vec<&str>`; the
backing byte arena (`buf`/`full`) only serves pointer stability, which the
model expresses as: the `vec` is append-only, so the slot at an id never
changes.  The map is modelled as an association list (keys are inserted only
when absent, so they are distinct and representation order is irrelevant). -/

structure StringInterner where
  map : List (String × Nat)
  vec : List String
deriving Repr, DecidableEq

def StringInterner.empty : StringInterner := ⟨[], []⟩

/-- `StringInterner::intern`: on a hit return the existing id and the stored
slot `vec[id]`; on a miss allocate the content, assign `id = map.len()`,
insert into the map and push onto `vec`. -/
def StringInterner.intern (I : StringInterner) (name : String) :
    Nat × String × StringInterner :=
  match I.map.lookup name with
  | some id => (id, I.vec.getD id "", I)
  | none =>
      let id := I.map.length
      (id, name, ⟨(name, id) :: I.map, I.vec ++ [name]⟩)

/-- `StringInterner::lookup`: `vec[id]`. -/
def StringInterner.lookupId (I : StringInterner) (id : Nat) : String :=
  I.vec.getD id ""

/-! ## Values (the `Value` enum matched by src/vm.rs and src/debug.rs) -/

inductive Value where
  | nil
  | bool (b : Bool)
  | number (n : Int)
  | string (s : String)
  | stringId (id : Nat)
  | function (fid : Nat)
  | closure (cid : Nat)
  | nativeFunction (nid : Nat)
deriving Repr, DecidableEq

/-- `Value::as_number`. -/
def Value.asNumber : Value → Option Int
  | .number n => some n
  | _ => none

/-- `Value::as_string`. -/
def Value.asString : Value → Option String
  | .string s => some s
  | _ => none

/-- `Value::as_string_id`. -/
def Value.asStringId : Value → Option Nat
  | .stringId id => some id
  | _ => none

/-- `Value::as_function`. -/
def Value.asFunction : Value → Option Nat
  | .function fid => some fid
  | _ => none

/-- `Value::as_closure`. -/
def Value.asClosure : Value → Option Nat
  | .closure cid => some cid
  | _ => none

/-- `Value::as_native_function`. -/
def Value.asNativeFunction : Value → Option Nat
  | .nativeFunction nid => some nid
  | _ => none

/-- `is_falsey` (src/vm.rs): true iff `Nil` or `Bool(false)`. -/
def isFalsey : Value → Bool
  | .nil => true
  | .bool b => !b
  | _ => false

/-! ## Opcodes and chunks (src/chunk.rs) -/

inductive OpCode where
  | constant | nilOp | trueOp | falseOp
  | equal | greater | less
  | add | subtract | multiply | divide
  | notOp | negate | returnOp
  | print | pop | defineGlobal | getGlobal | setGlobal
  | getLocal | setLocal | jumpIfFalse | jump | loop | call | closureOp
deriving Repr, DecidableEq

/-- The `repr(u8)` discriminant of each opcode (declaration order from 0). -/
def OpCode.toByte : OpCode → Nat
  | .constant => 0 | .nilOp => 1 | .trueOp => 2 | .falseOp => 3
  | .equal => 4 | .greater => 5 | .less => 6
  | .add => 7 | .subtract => 8 | .multiply => 9 | .divide => 10
  | .notOp => 11 | .negate => 12 | .returnOp => 13
  | .print => 14 | .pop => 15 | .defineGlobal => 16 | .getGlobal => 17
  | .setGlobal => 18 | .getLocal => 19 | .setLocal => 20
  | .jumpIfFalse => 21 | .jump => 22 | .loop => 23 | .call => 24
  | .closureOp => 25

/-- `TryFrom<u8> for OpCode`. -/
def OpCode.ofByte (b : Nat) : Option OpCode :=
  match b with
  | 0 => some .constant | 1 => some .nilOp | 2 => some .trueOp
  | 3 => some .falseOp | 4 => some .equal | 5 => some .greater
  | 6 => some .less | 7 => some .add | 8 => some .subtract
  | 9 => some .multiply | 10 => some .divide | 11 => some .notOp
  | 12 => some .negate | 13 => some .returnOp | 14 => some .print
  | 15 => some .pop | 16 => some .defineGlobal | 17 => some .getGlobal
  | 18 => some .setGlobal | 19 => some .getLocal | 20 => some .setLocal
  | 21 => some .jumpIfFalse | 22 => some .jump | 23 => some .loop
  | 24 => some .call | 25 => some .closureOp
  | _ => none

/-- `Chunk`: bytecode, constant pool, and the line table parallel to `code`. -/
structure Chunk where
  code : List Nat
  constants : List Value
  lines : List Nat
deriving Repr, DecidableEq

def Chunk.new : Chunk := ⟨[], [], []⟩

/-- `Chunk::write`: append a byte and its line. -/
def Chunk.write (c : Chunk) (byte : Nat) (line : Nat) : Chunk :=
  { c with code := c.code ++ [byte], lines := c.lines ++ [line] }

/-- `Chunk::add_constant`: push and return the new index. -/
def Chunk.addConstant (c : Chunk) (v : Value) : Chunk × Nat :=
  ({ c with constants := c.constants ++ [v] }, c.constants.length)

/-- `Chunk::byte` (`code[i]`; in-bounds in every use below). -/
def Chunk.byte (c : Chunk) (i : Nat) : Nat := c.code.getD i 0

/-- `Chunk::line` (`lines[i]`). -/
def Chunk.line (c : Chunk) (i : Nat) : Nat := c.lines.getD i 0

/-- `Chunk::constant_value` (`constants[i]`). -/
def Chunk.constantValue (c : Chunk) (i : Nat) : Value :=
  c.constants.getD i .nil

/-! ## Memory arena (src/memory.rs, object records from the source) -/

structure LoxFunction where
  arity : Nat
  chunk : Chunk
  name : Nat
deriving Repr, DecidableEq

structure LoxClosure where
  function : Nat
deriving Repr, DecidableEq

/-- `NativeFunction { name, callable }`; the callable is a Lean function. -/
structure LoxNative where
  name : Nat
  callable : List Value → Value

structure Memory where
  strings : StringInterner
  functions : List LoxFunction
  natives : List LoxNative
  closures : List LoxClosure

def Memory.new : Memory := ⟨.empty, [], [], []⟩

/-- `Memory::string_id`. -/
def Memory.stringId (m : Memory) (s : String) : Nat × Memory :=
  let (id, _, strings) := m.strings.intern s
  (id, { m with strings })

/-- `Memory::string_intern` (returns the stable content). -/
def Memory.stringIntern (m : Memory) (s : String) : String × Memory :=
  let (_, r, strings) := m.strings.intern s
  (r, { m with strings })

/-- `Memory::get_string`. -/
def Memory.getString (m : Memory) (id : Nat) : String :=
  m.strings.lookupId id

/-- `Memory::new_function`: intern the name, push a fresh zero-arity
function, return its id. -/
def Memory.newFunction (m : Memory) (name : String) : Nat × Memory :=
  let id := m.functions.length
  let (nameId, m) := m.stringId name
  (id, { m with functions := m.functions ++ [⟨0, Chunk.new, nameId⟩] })

/-- `Memory::new_closure`. -/
def Memory.newClosure (m : Memory) (function : Nat) : Nat × Memory :=
  (m.closures.length, { m with closures := m.closures ++ [⟨function⟩] })

/-- `Memory::new_native`. -/
def Memory.newNative (m : Memory) (name : String)
    (f : List Value → Value) : Nat × Memory :=
  let id := m.natives.length
  let (nameId, m) := m.stringId name
  (id, { m with natives := m.natives ++ [⟨nameId, f⟩] })

def Memory.functionAt (m : Memory) (id : Nat) : LoxFunction :=
  m.functions.getD id ⟨0, Chunk.new, 0⟩

def Memory.closureAt (m : Memory) (id : Nat) : LoxClosure :=
  m.closures.getD id ⟨0⟩

def Memory.nativeAt (m : Memory) (id : Nat) : LoxNative :=
  m.natives.getD id ⟨0, fun _ => .nil⟩

end Rlox

namespace Rlox

/-! ## The VM (src/vm.rs) -/

inductive InterpretResult where
  | ok
  | compileError
  | runtimeError
deriving Repr, DecidableEq

structure CallFrame where
  closure : Nat
  ip : Nat
  slotStart : Nat
deriving Repr, DecidableEq

/-- The VM state.  `frames` holds the innermost (most recently pushed) frame
at the head; `stack` keeps Rust `Vec` order (index 0 = bottom).  `globals` is
the `HashMap<StrId, Value>` as an association list.  `printOutput` collects
one entry per executed `Print` (each Rust print ends with a newline);
`vmError` accumulates the error-sink text. -/
structure VMState where
  frames : List CallFrame
  stack : List Value
  globals : List (Nat × Value)
  memory : Memory
  printOutput : List String
  vmError : String

/-- `HashMap::insert`: replace the value when the key is present, otherwise
add the entry. -/
def hmInsert (gs : List (Nat × Value)) (k : Nat) (v : Value) :
    List (Nat × Value) :=
  match gs with
  | [] => [(k, v)]
  | (k', v') :: rest =>
      if k' = k then (k, v) :: rest else (k', v') :: hmInsert rest k v

/-- `print_value` (src/debug.rs): the text written for one value. -/
def printValue (m : Memory) : Value → String
  | .nil => "nil"
  | .bool b => toString b
  | .number n => toString n
  | .string s => "\"" ++ s ++ "\""
  | .stringId id => "\"" ++ m.getString id ++ "\""
  | .function id => "<fn " ++ m.getString (m.functionAt id).name ++ ">"
  | .nativeFunction id =>
      "<native fn " ++ m.getString (m.nativeAt id).name ++ ">"
  | .closure id =>
      "<closure " ++
        m.getString (m.functionAt (m.closureAt id).function).name ++ ">"

namespace VMState

def curFrame (st : VMState) : CallFrame := st.frames.headD ⟨0, 0, 0⟩

/-- `VM::chunk`: the chunk of the function of the current frame closure. -/
def chunk (st : VMState) : Chunk :=
  (st.memory.functionAt (st.memory.closureAt st.curFrame.closure).function).chunk

def bumpIp (st : VMState) (n : Nat) : VMState :=
  { st with frames :=
      match st.frames with
      | f :: r => { f with ip := f.ip + n } :: r
      | [] => [] }

def decIp (st : VMState) (n : Nat) : VMState :=
  { st with frames :=
      match st.frames with
      | f :: r => { f with ip := f.ip - n } :: r
      | [] => [] }

/-- `VM::read_byte`. -/
def readByte (st : VMState) : Nat × VMState :=
  (st.chunk.byte st.curFrame.ip, st.bumpIp 1)

/-- `VM::read_short` (big-endian pair of bytes). -/
def readShort (st : VMState) : Nat × VMState :=
  let (b1, st) := st.readByte
  let (b2, st) := st.readByte
  ((b1 <<< 8) ||| b2, st)

/-- `VM::read_constant`. -/
def readConstant (st : VMState) : Value × VMState :=
  let (b, st) := st.readByte
  (st.chunk.constantValue b, st)

def push (st : VMState) (v : Value) : VMState :=
  { st with stack := st.stack ++ [v] }

/-- `VM::pop` (`stack.pop().unwrap()`; nonempty in every use below). -/
def popV (st : VMState) : Value × VMState :=
  (st.stack.getLastD .nil, { st with stack := st.stack.dropLast })

/-- `VM::peek(i)`: the element `i` below the top. -/
def peek (st : VMState) (i : Nat) : Value :=
  st.stack.getD (st.stack.length - 1 - i) .nil

/-- `VM::runtime_error`: write the message, then a line diagnostic that
indexes the line table with the *byte value* of `code[ip - 1]`
(`chunk.lines[ins as usize]` in the source), then one `[line .. in ..]`
entry per frame from innermost to outermost, and clear the value stack. -/
def runtimeError (st : VMState) (msg : String) : VMState :=
  let ins := st.chunk.byte (st.curFrame.ip - 1)
  let line := st.chunk.lines.getD ins 0
  let base := st.vmError ++ msg ++ "[line " ++ toString line ++ "] in script"
  let traced := st.frames.foldl
    (fun acc frame =>
      let f := st.memory.functionAt (st.memory.closureAt frame.closure).function
      acc ++ "[line " ++ toString (f.chunk.line frame.ip) ++ " in " ++
        st.memory.getString f.name ++ "]\n")
    base
  { st with vmError := traced, stack := [] }

end VMState

inductive StepOut where
  | next (st : VMState)
  | halt (r : InterpretResult) (st : VMState)

/-- `VM::call`: arity check, then the 64-frame cap, then push a frame with
`ip = 0` and `slot_start = stack.len - arg_count - 1`. -/
def callClosure (st : VMState) (cid argCount : Nat) : Bool × VMState :=
  let fid := (st.memory.closureAt cid).function
  let arity := (st.memory.functionAt fid).arity
  if argCount ≠ arity then
    (false, st.runtimeError
      ("Expected " ++ toString arity ++ " arguments but got " ++
        toString argCount))
  else if st.frames.length = 64 then
    (false, st.runtimeError "Stack overflow")
  else
    (true, { st with
      frames := ⟨cid, 0, st.stack.length - argCount - 1⟩ :: st.frames })

/-- `VM::call_value`: dispatch on the callee.  For a native, the arguments
slice starts at `init_stack = stack.len - arg_count`; after the call the
stack is truncated to `init_stack` (the callee below the arguments is left
in place) and the result is pushed. -/
def callValue (st : VMState) (value : Value) (argCount : Nat) :
    Bool × VMState :=
  match value.asClosure with
  | some cid => callClosure st cid argCount
  | none =>
    match value.asNativeFunction with
    | some nid =>
        let native := st.memory.nativeAt nid
        let initStack := st.stack.length - argCount
        let args := st.stack.drop initStack
        let res := native.callable args
        let st := { st with stack := st.stack.take initStack }
        (true, st.push res)
    | none => (false, st.runtimeError "Can only call functions and classes")

/-- The match chain of the `Add` arm, after the two pops: try
`as_string` on both operands first, then `as_number` on both, else
runtime-error. -/
def vmAddVals (a b : Value) (st : VMState) : StepOut :=
  match a.asString, b.asString with
  | some sa, some sb =>
      let (r, memory) := st.memory.stringIntern (sa ++ sb)
      .next (VMState.push { st with memory } (.string r))
  | _, _ =>
    match a.asNumber, b.asNumber with
    | some na, some nb => .next (st.push (.number (na + nb)))
    | _, _ =>
        .halt .runtimeError
          (st.runtimeError "Operands must be strings or numbers")

/-- The `Add` arm of the dispatch loop: pop `b` then `a`, then dispatch on
their payloads. -/
def vmAdd (st : VMState) : StepOut :=
  let (b, st) := st.popV
  let (a, st) := st.popV
  vmAddVals a b st

/-- `VM::binary_op`. -/
def binaryOp (st : VMState) (f : Int → Int → Value) : StepOut :=
  let (b, st) := st.popV
  let (a, st) := st.popV
  match a, b with
  | .number a, .number b => .next (st.push (f a b))
  | _, _ => .halt .runtimeError (st.runtimeError "Operands must be numbers")

/-- The `DefineGlobal` arm: read the name constant, pop the value, and
`HashMap::insert` it (silently replacing any existing entry). -/
def vmDefineGlobal (st : VMState) : StepOut :=
  let (c, st) := st.readConstant
  let globalName := c.asStringId.getD 0
  let (val, st) := st.popV
  .next { st with globals := hmInsert st.globals globalName val }

/-- One iteration of the dispatch loop of `VM::run` (the debug-sink trace at the
top of the loop is not modelled; it only writes to the debug output). -/
def step (st : VMState) : StepOut :=
  let (b, st) := st.readByte
  match OpCode.ofByte b with
  | none => .halt .compileError st
  | some op =>
    match op with
    | .returnOp =>
        let (result, st) := st.popV
        let frame := st.curFrame
        let st := { st with frames := st.frames.tail }
        if st.frames.isEmpty then
          let (_, st) := st.popV
          .halt .ok st
        else
          .next (VMState.push { st with stack := st.stack.take frame.slotStart }
            result)
    | .pop =>
        let (_, st) := st.popV
        .next st
    | .equal =>
        let (a, st) := st.popV
        let (b, st) := st.popV
        .next (st.push (.bool (decide (a = b))))
    | .greater => binaryOp st (fun a b => .bool (decide (a > b)))
    | .less => binaryOp st (fun a b => .bool (decide (a < b)))
    | .add => vmAdd st
    | .subtract => binaryOp st (fun a b => .number (a - b))
    | .multiply => binaryOp st (fun a b => .number (a * b))
    | .divide => binaryOp st (fun a b => .number (a / b))
    | .notOp =>
        let (v, st) := st.popV
        .next (st.push (.bool (isFalsey v)))
    | .negate =>
        let (v, st) := st.popV
        match v with
        | .number n => .next (st.push (.number (-n)))
        | _ =>
            .halt .runtimeError (st.runtimeError "Operand must be a number")
    | .constant =>
        let (c, st) := st.readConstant
        .next (st.push c)
    | .nilOp => .next (st.push .nil)
    | .trueOp => .next (st.push (.bool true))
    | .falseOp => .next (st.push (.bool false))
    | .print =>
        let (v, st) := st.popV
        .next { st with
          printOutput := st.printOutput ++ [printValue st.memory v] }
    | .defineGlobal => vmDefineGlobal st
    | .getGlobal =>
        let (c, st) := st.readConstant
        let globalName := c.asStringId.getD 0
        match st.globals.lookup globalName with
        | some v => .next (st.push v)
        | none =>
            let name := st.memory.getString globalName
            .halt .runtimeError
              (st.runtimeError
                ("Undefined variable " ++ sq ++ name ++ sq))
    | .setGlobal =>
        let (c, st) := st.readConstant
        let globalName := c.asStringId.getD 0
        let val := st.peek 0
        match st.globals.lookup globalName with
        | some _ =>
            .next { st with globals := hmInsert st.globals globalName val }
        | none =>
            let name := st.memory.getString globalName
            .halt .runtimeError
              (st.runtimeError
                ("Undefined variable" ++ sq ++ " " ++ name ++ sq))
    | .getLocal =>
        let (slot, st) := st.readByte
        let slot := st.curFrame.slotStart + slot
        .next (st.push (st.stack.getD slot .nil))
    | .setLocal =>
        let (slot, st) := st.readByte
        let slot := st.curFrame.slotStart + slot
        .next { st with stack := st.stack.set slot (st.peek 0) }
    | .jumpIfFalse =>
        let (offset, st) := st.readShort
        if isFalsey (st.peek 0) then .next (st.bumpIp offset) else .next st
    | .jump =>
        let (offset, st) := st.readShort
        .next (st.bumpIp offset)
    | .loop =>
        let (offset, st) := st.readShort
        .next (st.decIp offset)
    | .call =>
        let (argCount, st) := st.readByte
        let (success, st) := callValue st (st.peek argCount) argCount
        if success then .next st else .halt .runtimeError st
    | .closureOp =>
        let (c, st) := st.readConstant
        match c.asFunction with
        | some fid =>
            let (cid, memory) := st.memory.newClosure fid
            .next (VMState.push { st with memory } (.closure cid))
        | none =>
            .halt .runtimeError (st.runtimeError "Expected closure")

/-- Run the dispatch loop for at most `fuel` instructions. -/
def runFuel : Nat → VMState → Option (InterpretResult × VMState)
  | 0, _ => none
  | fuel + 1, st =>
    match step st with
    | .halt r st' => some (r, st')
    | .next st' => runFuel fuel st'

/-- Iterate `step` exactly `n` times, stopping early on a halt. -/
def stepN : Nat → VMState → VMState
  | 0, st => st
  | n + 1, st =>
    match step st with
    | .halt _ st' => st'
    | .next st' => stepN n st'

end Rlox

namespace Rlox

/-! ## Compiler (src/compiler.rs)

The emission logic is embedded at the level of already-parsed statements and
expressions: each Lean function below translates the Rust `Parser` method of
the same name, with the token-consumption calls (`consume`, `advance`)
dropped — they only validate punctuation.  Line numbers attached to emitted
bytes are immaterial to the claims below and are written as 0.  `errors`
collects the messages reported through `Parser::error` (so `had_error` is
`errors ≠ []`), and `panicMode` mirrors the suppression flag. -/

/-- Diagnostic message with an apostrophe, built without a quote literal. -/
def cantReadMsg : String :=
  "Can" ++ sq ++ "t read local variable in its own initializer"

inductive LocalDepth where
  | uninit
  | inited (d : Nat)
deriving Repr, DecidableEq

/-- A `Local` (the name token is represented by its lexeme text). -/
structure CLocal where
  name : String
  depth : LocalDepth
deriving Repr, DecidableEq

mutual

inductive Expr where
  | num (n : Int)
  | var (name : String)
  | call (callee : Expr) (args : ExprList)

inductive ExprList where
  | nil
  | cons (e : Expr) (rest : ExprList)

end

mutual

inductive Stmt where
  | varDecl (name : String) (init : Expr)
  | varDeclBare (name : String)
  | printS (e : Expr)
  | exprStmt (e : Expr)
  | block (body : StmtList)

inductive StmtList where
  | nil
  | cons (s : Stmt) (rest : StmtList)

end

/-- The compiler state: the `locals` and `scope_depth` of the current
compiler context, the chunk being written (held in `memory.functions` in Rust;
written back on completion here), the memory arena, and error state. -/
structure CState where
  locals : List CLocal
  scopeDepth : Nat
  chunk : Chunk
  memory : Memory
  errors : List String
  panicMode : Bool

namespace CState

/-- `Parser::error`: drop the report under `panic_mode`, else set it and
record the message (`had_error = true`). -/
def error (st : CState) (msg : String) : CState :=
  if st.panicMode then st
  else { st with panicMode := true, errors := st.errors ++ [msg] }

/-- `Parser::emit_byte` (the line is irrelevant here, see above). -/
def emitByte (st : CState) (b : Nat) : CState :=
  { st with chunk := st.chunk.write b 0 }

/-- `Parser::emit_op_code`. -/
def emitOpCode (st : CState) (op : OpCode) : CState :=
  st.emitByte op.toByte

/-- `Parser::emit_bytes`. -/
def emitBytes (st : CState) (a b : Nat) : CState :=
  (st.emitByte a).emitByte b

/-- `Parser::make_constant`: add to the pool; an index above 255 reports
"Too many constants in one chunk" and yields 0. -/
def makeConstant (st : CState) (v : Value) : Nat × CState :=
  let (chunk, c) := st.chunk.addConstant v
  let st := { st with chunk }
  if c > 255 then (0, st.error "Too many constants in one chunk") else (c, st)

/-- `Parser::emit_constant`. -/
def emitConstant (st : CState) (v : Value) : CState :=
  let (c, st) := st.makeConstant v
  st.emitBytes OpCode.constant.toByte c

/-- `Parser::identifier_constant`: intern the name, store its `StringId` as
a constant. -/
def identifierConstant (st : CState) (name : String) : Nat × CState :=
  let (id, memory) := st.memory.stringId name
  makeConstant { st with memory } (.stringId id)

/-- `Parser::add_local`: refuse when the locals list already holds 255
entries; otherwise append an Uninitialized local. -/
def addLocal (st : CState) (name : String) : CState :=
  if st.locals.length = 255 then
    st.error "Too many local variables in function"
  else
    { st with locals := st.locals ++ [⟨name, .uninit⟩] }

/-- `Parser::declare_variable`: no-op at global scope; otherwise report a
duplicate in the current scope, then `add_local`. -/
def declareVariable (st : CState) (name : String) : CState :=
  if st.scopeDepth = 0 then st
  else
    let existing := (st.locals.reverse.takeWhile fun l =>
        match l.depth with
        | .uninit => false
        | .inited d => decide (d ≥ st.scopeDepth)).any
      (fun l => l.name == name)
    let st :=
      if existing then
        st.error "A variable with this name already exists in this scope"
      else st
    st.addLocal name

/-- `Parser::mark_initialized`. -/
def markInited (st : CState) : CState :=
  if st.scopeDepth = 0 then st
  else
    match st.locals.getLast? with
    | none => st
    | some l =>
        { st with
          locals := st.locals.dropLast ++ [⟨l.name, .inited st.scopeDepth⟩] }

/-- `Parser::define_variable`. -/
def defineVariable (st : CState) (addr : Nat) : CState :=
  if st.scopeDepth > 0 then st.markInited
  else st.emitBytes OpCode.defineGlobal.toByte addr

/-- `Parser::parse_variable` (after the name token is consumed). -/
def parseVariable (st : CState) (name : String) : Nat × CState :=
  let st := st.declareVariable name
  if st.scopeDepth > 0 then (0, st) else st.identifierConstant name

/-- `Parser::resolve_local`: newest-to-oldest scan by lexeme; a hit on an
Uninitialized local reports the own-initializer error. -/
def resolveLocal (st : CState) (name : String) : Option Nat × CState :=
  match st.locals.enum.reverse.find? (fun p => p.2.name == name) with
  | none => (none, st)
  | some (i, l) =>
      let st := if l.depth = .uninit then st.error cantReadMsg else st
      (some i, st)

/-- `Parser::named_variable`, read path (the programs studied here contain
no assignment expressions, so the `Set` path is never taken). -/
def namedVariable (st : CState) (name : String) : CState :=
  let (r, st) := st.resolveLocal name
  match r with
  | some arg => st.emitBytes OpCode.getLocal.toByte arg
  | none =>
      let (arg, st) := st.identifierConstant name
      st.emitBytes OpCode.getGlobal.toByte arg

/-- `Parser::begin_scope`. -/
def beginScope (st : CState) : CState :=
  { st with scopeDepth := st.scopeDepth + 1 }

/-- The `for _ in 0..to_pop` loop of `Parser::end_scope`. -/
def popLocals : Nat → CState → CState
  | 0, st => st
  | n + 1, st =>
      let st := st.emitOpCode .pop
      popLocals n { st with locals := st.locals.dropLast }

/-- `Parser::end_scope`: count the locals at the exiting depth, decrement
the depth, then emit one `Pop` per such local and drop it. -/
def endScope (st : CState) : CState :=
  let toPop := (st.locals.reverse.takeWhile fun l =>
      match l.depth with
      | .uninit => true
      | .inited d => decide (d ≥ st.scopeDepth)).length
  popLocals toPop { st with scopeDepth := st.scopeDepth - 1 }

end CState

mutual

/-- Expression compilation: `number` emits a constant; an identifier read
goes through `named_variable`; a call compiles the callee, then the
arguments (`argument_list`), then emits `Call n`. -/
def compileExpr (st : CState) : Expr → CState
  | .num n => st.emitConstant (.number n)
  | .var name => st.namedVariable name
  | .call callee args =>
      let st := compileExpr st callee
      let (n, st) := compileArgs st args 0
      st.emitBytes OpCode.call.toByte n

/-- `Parser::argument_list`: compile each argument, erroring past 255. -/
def compileArgs (st : CState) : ExprList → Nat → Nat × CState
  | .nil, n => (n, st)
  | .cons e rest, n =>
      let st := compileExpr st e
      let st := if n = 255 then
          st.error ("Can" ++ sq ++ "t have more than 255 arguments") else st
      compileArgs st rest (n + 1)

/-- Statement compilation, mirroring `var_declaration`, `print_statement`,
`expression_statement` and the block rule. -/
def compileStmt (st : CState) : Stmt → CState
  | .varDecl name init =>
      let (addr, st) := st.parseVariable name
      let st := compileExpr st init
      st.defineVariable addr
  | .varDeclBare name =>
      let (addr, st) := st.parseVariable name
      let st := st.emitOpCode .nilOp
      st.defineVariable addr
  | .printS e => (compileExpr st e).emitOpCode .print
  | .exprStmt e => (compileExpr st e).emitOpCode .pop
  | .block body => (compileBlock (st.beginScope) body).endScope

/-- `Parser::block` / the top-level program loop: each element passes
through `declaration`, which after compiling one statement clears
`panic_mode` when set (`synchronize`; its token consumption is immaterial
at this level: each following statement here begins with a synchronization
token). -/
def compileBlock (st : CState) : StmtList → CState
  | .nil => st
  | .cons s rest =>
      let st := compileStmt st s
      let st := if st.panicMode then { st with panicMode := false } else st
      compileBlock st rest

end

/-- `compile` + `Parser::new` + `end_compiler` for the top-level script: the
script compiler context starts with an *empty* locals list and depth 0;
`new_function("<script>")` allocates `FunctionId 0`; after all declarations
`end_compiler` emits `Nil, Return`. -/
def scriptCompile (stmts : StmtList) : CState :=
  let (_, memory) := Memory.new.newFunction "<script>"
  let st : CState := ⟨[], 0, Chunk.new, memory, [], false⟩
  let st := compileBlock st stmts
  (st.emitOpCode .nilOp).emitOpCode .returnOp

/-- Build the VM exactly as `Parser::compile` + `VM::new` do on success:
store the script chunk in function 0, register the `clock` native (its host
behaviour is out of scope and passed in as `clock`), push the script
closure, and `call` it with zero arguments. -/
def vmInit (cst : CState) (clock : List Value → Value) : VMState :=
  let memory := { cst.memory with
    functions := cst.memory.functions.set 0
      { cst.memory.functionAt 0 with chunk := cst.chunk } }
  let (nid, memory) := memory.newNative "clock" clock
  let (clockNameId, memory) := memory.stringId "clock"
  let globals := hmInsert [] clockNameId (.nativeFunction nid)
  let (cid, memory) := memory.newClosure 0
  let st : VMState := ⟨[], [], globals, memory, [], ""⟩
  let st := st.push (.closure cid)
  (callClosure st cid 0).2

/-- `interpret`: compile; on `had_error` return `CompileError`, otherwise
run the VM (for at most `fuel` instructions), returning the result and the
captured print lines. -/
def interpretProg (stmts : StmtList) (clock : List Value → Value)
    (fuel : Nat) : Option (InterpretResult × List String) :=
  let cst := scriptCompile stmts
  if cst.errors.isEmpty then
    (runFuel fuel (vmInit cst clock)).map fun p => (p.1, p.2.printOutput)
  else some (.compileError, [])

end Rlox

namespace Rlox

/-! ## Synchronization (src/compiler.rs `Parser::synchronize`) -/

inductive TokenType where
  | leftParen | rightParen | leftBrace | rightBrace | comma | dot
  | minus | plus | semiColon | slash | star
  | bang | bangEqual | equal | equalEqual
  | greater | greaterEqual | less | lessEqual
  | identifier | stringTok | number
  | andTok | classTok | elseTok | falseTok | forTok | funTok | ifTok
  | nilTok | orTok | printTok | returnTok | superTok | thisTok | trueTok
  | varTok | whileTok
  | errorTok | eof

/-- The `self.previous().typ == SemiColon` test of `synchronize` (derived
`PartialEq` on the token-type enum, modelled per comparison). -/
def TokenType.isSemiColon : TokenType → Bool
  | .semiColon => true
  | _ => false

/-- The `match self.current().typ` arm of `synchronize` that returns:
`Class | Fun | Var | For | If | While | Print | Return`. -/
def isSyncStart : TokenType → Bool
  | .classTok | .funTok | .varTok | .forTok | .ifTok | .whileTok
  | .printTok | .returnTok => true
  | _ => false

/-- The `while` loop of `Parser::synchronize`, run with `fuel` iterations.
In the source the `self.advance()` call sits *after* the loop, so an
iteration changes no parser state: `previous` and `current` are the same
on every pass.  `some c` means the loop finished and `c` tokens were then
consumed (1 when the `EOF` test fails and control falls through to
`advance()`); `none` means the fuel ran out with the loop still spinning. -/
def synchronizeLoop (previous current : TokenType) : Nat → Option Nat
  | 0 => none
  | fuel + 1 =>
      match current with
      | .eof => some 1
      | _ =>
          if previous.isSemiColon then some 0
          else if isSyncStart current then some 0
          else synchronizeLoop previous current fuel

/-! ## Interner well-formedness (for C8/C9) -/

/-- The `map`/`vec` consistency the interner maintains: ids count the map
entries, and every mapped id stores exactly the content of its key in `vec`. -/
def InternerWF (I : StringInterner) : Prop :=
  I.map.length = I.vec.length ∧
  ∀ s id, I.map.lookup s = some id → I.vec[id]? = some s

/-- Interleave a sequence of intern calls (dropping their results). -/
def foldIntern (ss : List String) (I : StringInterner) : StringInterner :=
  ss.foldl (fun J t => (J.intern t).2.2) I

/-! ## Statements of claims written from the spec text (for refinement) -/

/-- The call protocol of C7 as the claim states it: arity mismatch aborts with
"Expected N arguments but got M"; else a full frame stack (64 frames)
aborts with "Stack overflow"; else a new frame `{closure = cid, ip = 0,
slot_start = stack.len - argc - 1}` is pushed. -/
def c7CallClaim (st : VMState) (cid argCount : Nat) : Bool × VMState :=
  let arity := (st.memory.functionAt (st.memory.closureAt cid).function).arity
  if argCount = arity then
    if st.frames.length = 64 then
      (false, st.runtimeError "Stack overflow")
    else
      (true, { st with
        frames := ⟨cid, 0, st.stack.length - argCount - 1⟩ :: st.frames })
  else
    (false, st.runtimeError
      ("Expected " ++ toString arity ++ " arguments but got " ++
        toString argCount))

/-- The Add rule of C8 as the claim states it, for operands `a` (below) and `b`
(top): both strings → push the interned concatenation `a ++ b` as a String
value; else both numbers → push the sum; else abort with "Operands must be
strings or numbers". -/
def c8AddClaim (a b : Value) (st : VMState) : StepOut :=
  match a, b with
  | .string sa, .string sb =>
      let (_, memory) := st.memory.stringIntern (sa ++ sb)
      .next (VMState.push { st with memory } (.string (sa ++ sb)))
  | _, _ =>
    match a, b with
    | .number na, .number nb => .next (st.push (.number (na + nb)))
    | _, _ =>
        .halt .runtimeError
          (st.runtimeError "Operands must be strings or numbers")

/-! ## Concrete programs and states used by individual claims -/

def StmtList.ofList : List Stmt → StmtList
  | [] => .nil
  | s :: rest => .cons s (StmtList.ofList rest)

/-- The C1 program
`var a = 1; { var a = 2; { var a = 3; print a; } print a; } print a;`. -/
def c1prog : StmtList :=
  .cons (.varDecl "a" (.num 1))
  (.cons (.block
    (.cons (.varDecl "a" (.num 2))
    (.cons (.block
      (.cons (.varDecl "a" (.num 3))
      (.cons (.printS (.var "a")) .nil)))
    (.cons (.printS (.var "a")) .nil))))
  (.cons (.printS (.var "a")) .nil))

/-- The C3 program `clock();` (one expression statement calling a native). -/
def c3prog : StmtList :=
  .cons (.exprStmt (.call (.var "clock") .nil)) .nil

/-- A sequence of `var NAME;` declarations for the given names. -/
def bareDecls (names : List String) : StmtList :=
  StmtList.ofList (names.map .varDeclBare)

/-- 256 pairwise-distinct one-character variable names. -/
def c5names : List String :=
  (List.range 256).map fun i => String.singleton (Char.ofNat (65 + i))

/-- A VM mid-`Call` whose callee is a native returning `Number 7`; the
callee sits on top of the stack and the call passes zero arguments. -/
def c2state : VMState :=
  { frames := [⟨0, 2, 0⟩],
    stack := [.nativeFunction 0],
    globals := [],
    memory :=
      { strings := .empty,
        functions := [⟨0, ⟨[24, 0], [], [1, 1]⟩, 0⟩],
        natives := [⟨0, fun _ => .number 7⟩],
        closures := [⟨0⟩] },
    printOutput := [],
    vmError := "" }

/-- The chunk for C6: `GetGlobal 0; Nil; Return` with line table
`[111, 222, 333, 444]`; constant 0 is the `StringId` of the undefined
global `x`. -/
def c6chunk : Chunk := ⟨[17, 0, 1, 13], [.stringId 1], [111, 222, 333, 444]⟩

/-- A VM about to execute the `GetGlobal` of `x` at ip 0; `x` is not in the
globals table, so the instruction raises the undefined-variable error. -/
def c6state : VMState :=
  { frames := [⟨0, 0, 0⟩],
    stack := [.closure 0],
    globals := [],
    memory :=
      { strings := ⟨[("<script>", 0), ("x", 1)], ["<script>", "x"]⟩,
        functions := [⟨0, c6chunk, 0⟩],
        natives := [],
        closures := [⟨0⟩] },
    printOutput := [],
    vmError := "" }

/-- A VM whose globals already bind name 0 ("clock") to the registered
native, about to execute the operand read of a `DefineGlobal 0` whose
pending value is `Number 5` (ip points at the operand byte). -/
def c10state : VMState :=
  { frames := [⟨0, 1, 0⟩],
    stack := [.closure 0, .number 5],
    globals := [(0, .nativeFunction 0)],
    memory :=
      { strings := ⟨[("clock", 0)], ["clock"]⟩,
        functions := [⟨0, ⟨[16, 0], [.stringId 0], [1, 1]⟩, 0⟩],
        natives := [⟨0, fun _ => .number 0⟩],
        closures := [⟨0⟩] },
    printOutput := [],
    vmError := "" }

/-- A VM state at an `Add` whose two operands are the strings `"ab"` and
`"cd"`, with an empty interner; used to witness C8. -/
def c8state : VMState :=
  { frames := [⟨0, 1, 0⟩],
    stack := [.string "ab", .string "cd"],
    globals := [],
    memory :=
      { strings := .empty,
        functions := [⟨0, ⟨[7], [], [1]⟩, 0⟩],
        natives := [],
        closures := [⟨0⟩] },
    printOutput := [],
    vmError := "" }

end Rlox

namespace Rlox

/-! ## Helper lemmas -/

@[simp] theorem bumpIp_stack (st : VMState) (n : Nat) :
    (st.bumpIp n).stack = st.stack := rfl

@[simp] theorem bumpIp_globals (st : VMState) (n : Nat) :
    (st.bumpIp n).globals = st.globals := rfl

@[simp] theorem bumpIp_memory (st : VMState) (n : Nat) :
    (st.bumpIp n).memory = st.memory := rfl

@[simp] theorem bumpIp_vmError (st : VMState) (n : Nat) :
    (st.bumpIp n).vmError = st.vmError := rfl

@[simp] theorem bumpIp_printOutput (st : VMState) (n : Nat) :
    (st.bumpIp n).printOutput = st.printOutput := rfl

@[simp] theorem bumpIp_chunk (st : VMState) (n : Nat) :
    (st.bumpIp n).chunk = st.chunk := by
  obtain ⟨frames, stack, globals, memory, po, ve⟩ := st
  cases frames <;> rfl

theorem hmInsert_lookup (gs : List (Nat × Value)) (k : Nat) (v : Value) :
    (hmInsert gs k v).lookup k = some v := by
  induction gs with
  | nil => simp [hmInsert, List.lookup]
  | cons p rest ih =>
      obtain ⟨a, b⟩ := p
      by_cases h : a = k
      · subst h
        simp [hmInsert, List.lookup]
      · have hka : (k == a) = false := beq_eq_false_iff_ne.mpr (Ne.symm h)
        simp [hmInsert, h, List.lookup, hka, ih]

/-- Claim C4: for the parser state reached from the source `1 1` (previous token
`Number`, current token `Number`), the `synchronize` loop never returns, no
matter how many iterations it is given: its body cannot change the parser
state because the `advance()` call is placed after the loop. -/
theorem c4_synchronize_never_returns :
    ∀ fuel, synchronizeLoop .number .number fuel = none := by
  intro fuel
  induction fuel with
  | zero => rfl
  | succ n ih =>
      simpa [synchronizeLoop, isSyncStart, TokenType.isSemiColon] using ih

/-- Claim C7: `VM::call` implements exactly the claimed protocol: arity mismatch
aborts with "Expected N arguments but got M", then a 64-deep frame stack
aborts with "Stack overflow", otherwise a frame with ip 0 and
`slot_start = stack.len - argc - 1` is pushed (so recursion that would need
a 65th frame ends in the "Stack overflow" runtime error). -/
theorem c7_call_protocol (st : VMState) (cid argCount : Nat) :
    callClosure st cid argCount = c7CallClaim st cid argCount := by
  unfold callClosure c7CallClaim
  by_cases h :
      argCount = (st.memory.functionAt (st.memory.closureAt cid).function).arity <;>
    simp [h]

/-- Claim C2: calling a zero-argument native whose callee sits on top of the stack
leaves the callee in place under the result: the stack is truncated only to
`init_stack = stack.len - argc`, not to `init_stack - 1` as the claim (and
spec) state, so the callee value is never removed. -/
theorem c2_native_call_keeps_callee :
    (callValue c2state (.nativeFunction 0) 0).1 = true ∧
    (callValue c2state (.nativeFunction 0) 0).2.stack =
      [.nativeFunction 0, .number 7] ∧
    (callValue c2state (.nativeFunction 0) 0).2.stack ≠ [.number 7] := by
  refine ⟨rfl, rfl, ?_⟩
  decide

/-- Claim C3: the expression statement `clock();` is not stack-neutral: starting
from the script frame with only the script closure on the stack (height 1),
after its three instructions (`GetGlobal`, `Call 0`, `Pop`) the height is 2 —
the native callee is left behind — for every behaviour of the host clock. -/
theorem c3_native_statement_unbalances_stack :
    ∀ clock, (vmInit (scriptCompile c3prog) clock).stack = [.closure 0] ∧
      (stepN 3 (vmInit (scriptCompile c3prog) clock)).stack =
        [.closure 0, .nativeFunction 0] := fun _ => ⟨rfl, rfl⟩

/-- Claim C6: at a runtime error the line number printed in `[line N] in script`
is `lines[code[ip-1]]` — the opcode/operand byte value indexes the line
table — not `lines[ip-1]`: erroring at the `GetGlobal` whose operand byte
is 0 prints line `lines[0] = 111`, while ip-based indexing would print
`lines[ip - 1] = lines[1] = 222`. -/
theorem c6_error_line_indexed_by_opcode_byte :
    (runFuel 1 c6state).map (fun p => (p.1, p.2.vmError)) =
      some (.runtimeError,
        "Undefined variable " ++ sq ++ "x" ++ sq ++
          "[line 111] in script[line 333 in <script>]\n") ∧
    c6chunk.line (2 - 1) = 222 := ⟨rfl, rfl⟩

set_option maxHeartbeats 2000000 in
/-- Claim C1: interpreting
`var a = 1; { var a = 2; { var a = 3; print a; } print a; } print a;`
returns OK but prints `2`, `<closure <script>>`, `1` — not `3`, `2`, `1` as
the spec scenario demands: the script compiler context starts with an empty
locals list while the VM keeps the script closure in stack slot 0, so every
script-level `GetLocal` slot is off by one. -/
theorem c1_script_locals_output :
    ∀ clock, interpretProg c1prog clock 100 =
      some (.ok, ["2", "<closure <script>>", "1"]) := fun _ => rfl

/-- Claim C10: executing `DefineGlobal k` when `constants[k]` names a global that
is already bound performs a plain `HashMap::insert`, silently replacing the
stored value; no error path exists, the error sink is untouched, and the
pending value is popped.  In particular a host-registered native can be
shadowed this way. -/
theorem c10_define_global_overwrites (st : VMState) (k id : Nat)
    (v old : Value) (rest : List Value)
    (hk : st.chunk.byte st.curFrame.ip = k)
    (hconst : st.chunk.constantValue k = .stringId id)
    (hstack : st.stack = rest ++ [v])
    (hold : st.globals.lookup id = some old) :
    vmDefineGlobal st =
      .next { (st.bumpIp 1) with
          stack := rest,
          globals := hmInsert st.globals id v } ∧
    (hmInsert st.globals id v).lookup id = some v := by
  refine ⟨?_, hmInsert_lookup st.globals id v⟩
  simp only [vmDefineGlobal, VMState.readConstant, VMState.readByte, hk,
    hconst, Value.asStringId, Option.getD, VMState.popV, bumpIp_stack,
    bumpIp_chunk, bumpIp_globals, hstack, List.dropLast_concat,
    List.getLastD_concat]

/-- Claim C10 witness: shadowing the registered `clock` native with `Number 5`. -/
theorem c10_define_global_overwrites_witness :
    vmDefineGlobal c10state =
      .next { (c10state.bumpIp 1) with
          stack := [Value.closure 0],
          globals := hmInsert c10state.globals 0 (.number 5) } ∧
    (hmInsert c10state.globals 0 (.number 5)).lookup 0 = some (.number 5) :=
  c10_define_global_overwrites c10state 0 0 (.number 5) (.nativeFunction 0)
    [.closure 0] rfl rfl rfl rfl

theorem internerWF_empty : InternerWF StringInterner.empty := by
  refine ⟨rfl, ?_⟩
  intro s id h
  simp [StringInterner.empty, List.lookup] at h

/-- Under well-formedness, `intern` returns exactly the requested content
(on a hit it is the stored copy, on a miss the fresh allocation). -/
theorem intern_content (I : StringInterner) (hwf : InternerWF I)
    (s : String) : (I.intern s).2.1 = s := by
  unfold StringInterner.intern
  cases h : I.map.lookup s with
  | none => simp
  | some id =>
      have hv := hwf.2 s id h
      simp [List.getD_eq_getElem?_getD, hv]

theorem intern_wf (I : StringInterner) (hwf : InternerWF I) (s : String) :
    InternerWF (I.intern s).2.2 := by
  unfold StringInterner.intern
  cases h : I.map.lookup s with
  | some id => simpa using hwf
  | none =>
      refine ⟨by simp [hwf.1], ?_⟩
      intro t id hl
      rw [List.lookup_cons] at hl
      by_cases hts : t = s
      · subst hts
        simp only [beq_self_eq_true] at hl
        obtain rfl : I.map.length = id := by simpa using hl
        rw [hwf.1]
        simp [List.getElem?_concat_length]
      · rw [beq_eq_false_iff_ne.mpr hts] at hl
        simp only at hl
        have hv := hwf.2 t id hl
        have hlt : id < I.vec.length := by
          by_contra hge
          rw [List.getElem?_eq_none (Nat.le_of_not_lt hge)] at hv
          cases hv
        simp [List.getElem?_append_left hlt, hv]

/-- After interning `s`, the map binds `s` to the returned id. -/
theorem intern_lookup_self (I : StringInterner) (s : String) :
    ((I.intern s).2.2).map.lookup s = some (I.intern s).1 := by
  unfold StringInterner.intern
  cases h : I.map.lookup s with
  | some id => simpa using h
  | none => simp [List.lookup_cons]

/-- Interning another string never disturbs an existing binding. -/
theorem intern_preserves_lookup (I : StringInterner) (t : String) (id : Nat)
    (hl : I.map.lookup t = some id) (s : String) :
    ((I.intern s).2.2).map.lookup t = some id := by
  unfold StringInterner.intern
  cases h : I.map.lookup s with
  | some i => simpa using hl
  | none =>
      have hts : t ≠ s := by
        intro he
        rw [he, h] at hl
        cases hl
      simp [List.lookup_cons, beq_eq_false_iff_ne.mpr hts, hl]

/-- A whole interleaving of intern calls preserves well-formedness and
every existing binding. -/
theorem foldIntern_preserves (ss : List String) :
    ∀ (I : StringInterner), InternerWF I →
      ∀ t id, I.map.lookup t = some id →
        InternerWF (foldIntern ss I) ∧
          (foldIntern ss I).map.lookup t = some id := by
  induction ss with
  | nil => exact fun I hwf t id hl => ⟨hwf, hl⟩
  | cons u rest ih =>
      intro I hwf t id hl
      have h1 := intern_wf I hwf u
      have h2 := intern_preserves_lookup I t id hl u
      simpa [foldIntern, List.foldl] using ih _ h1 t id h2

/-- A map hit returns the stored id and slot without touching state. -/
theorem intern_hit (J : StringInterner) (s : String) (id : Nat)
    (h : J.map.lookup s = some id) :
    J.intern s = (id, J.vec.getD id "", J) := by
  unfold StringInterner.intern
  rw [h]

/-- Claim C9: `intern` is idempotent.  From any well-formed interner, intern `s`
(getting id `id1` and stored content `r1`); after any interleaving of other
intern calls, interning content equal to `s` again returns the same id, the
same content, read from the same unchanged storage slot `vec[id1]`
(pointer-equality in the model: the append-only store still holds `r1` at
`id1`); `lookup` on the id yields that content, and the second call leaves
the interner untouched. -/
theorem c9_intern_idempotent (I : StringInterner) (hwf : InternerWF I)
    (s : String) (ss : List String) :
    ((foldIntern ss (I.intern s).2.2).intern s).1 = (I.intern s).1 ∧
    ((foldIntern ss (I.intern s).2.2).intern s).2.1 = (I.intern s).2.1 ∧
    (foldIntern ss (I.intern s).2.2).vec[(I.intern s).1]? =
      some ((I.intern s).2.1) ∧
    ((foldIntern ss (I.intern s).2.2).intern s).2.2.lookupId
      (I.intern s).1 = (I.intern s).2.1 ∧
    ((foldIntern ss (I.intern s).2.2).intern s).2.2 =
      foldIntern ss (I.intern s).2.2 := by
  have hc : (I.intern s).2.1 = s := intern_content I hwf s
  have h1 := intern_wf I hwf s
  have h2 := intern_lookup_self I s
  obtain ⟨hwf2, hlk⟩ :=
    foldIntern_preserves ss (I.intern s).2.2 h1 s (I.intern s).1 h2
  have hvec : (foldIntern ss (I.intern s).2.2).vec[(I.intern s).1]? =
      some s := hwf2.2 s _ hlk
  have hhit : (foldIntern ss (I.intern s).2.2).intern s =
      ((I.intern s).1,
        (foldIntern ss (I.intern s).2.2).vec.getD (I.intern s).1 "",
        foldIntern ss (I.intern s).2.2) :=
    intern_hit _ s (I.intern s).1 hlk
  have hgd : (foldIntern ss (I.intern s).2.2).vec.getD (I.intern s).1 "" =
      s := by
    rw [List.getD_eq_getElem?_getD, hvec]
    rfl
  refine ⟨by rw [hhit], ?_, ?_, ?_, by rw [hhit]⟩
  · rw [hhit, hc]
    exact hgd
  · rw [hvec, hc]
  · rw [hhit]
    show (foldIntern ss (I.intern s).2.2).lookupId (I.intern s).1 = _
    rw [StringInterner.lookupId, hgd, hc]

/-- Claim C9 witness: intern `"a"` into the empty interner, interleave interns of
`"b"`, `"a"`, `"c"`, then intern `"a"` again: same id 0, same content `"a"`,
slot 0 still holds `"a"`, lookup agrees, interner unchanged. -/
theorem c9_intern_idempotent_witness :
    ((foldIntern ["b", "a", "c"]
        (StringInterner.empty.intern "a").2.2).intern "a").1 = 0 ∧
    ((foldIntern ["b", "a", "c"]
        (StringInterner.empty.intern "a").2.2).intern "a").2.1 = "a" ∧
    (foldIntern ["b", "a", "c"]
        (StringInterner.empty.intern "a").2.2).vec[(0 : Nat)]? = some "a" ∧
    ((foldIntern ["b", "a", "c"]
        (StringInterner.empty.intern "a").2.2).intern "a").2.2.lookupId 0 =
      "a" ∧
    ((foldIntern ["b", "a", "c"]
        (StringInterner.empty.intern "a").2.2).intern "a").2.2 =
      foldIntern ["b", "a", "c"] (StringInterner.empty.intern "a").2.2 := by
  have h := c9_intern_idempotent StringInterner.empty internerWF_empty "a"
    ["b", "a", "c"]
  exact ⟨h.1.trans rfl, h.2.1.trans rfl, h.2.2.1.trans rfl,
    h.2.2.2.1.trans rfl, h.2.2.2.2⟩

/-- Claim C8: executing `Add` on a stack ending in operands `a` (below) and `b`
(top), with a well-formed interner: both strings → push the interned
concatenation `a ++ b` as a String value; otherwise both numbers → push the
sum; otherwise abort with "Operands must be strings or numbers".  The
string test comes first. -/
theorem c8_add_semantics (st : VMState) (rest : List Value) (a b : Value)
    (hstack : st.stack = rest ++ [a, b])
    (hwf : InternerWF st.memory.strings) :
    vmAdd st = c8AddClaim a b { st with stack := rest } := by
  have hsplit : st.stack = (rest ++ [a]) ++ [b] := by
    simpa [List.append_assoc] using hstack
  have hpop1 : st.popV = (b, { st with stack := rest ++ [a] }) := by
    simp [VMState.popV, hsplit, List.dropLast_concat, List.getLastD_concat]
  have hpop2 : VMState.popV { st with stack := rest ++ [a] } =
      (a, { st with stack := rest }) := by
    simp [VMState.popV, List.dropLast_concat, List.getLastD_concat]
  rw [vmAdd, hpop1]
  simp only []
  rw [hpop2]
  simp only []
  cases a <;> cases b <;>
    simp [vmAddVals, c8AddClaim, Value.asString, Value.asNumber,
      Memory.stringIntern, intern_content _ hwf]

/-- Claim C8 witness: `"ab" + "cd"` pushes the interned `"abcd"`. -/
theorem c8_add_semantics_witness :
    vmAdd c8state =
      .next (VMState.push
        { c8state with
            stack := [],
            memory := { c8state.memory with
                          strings := ⟨[("abcd", 0)], ["abcd"]⟩ } }
        (.string "abcd")) := by
  have h := c8_add_semantics c8state [] (.string "ab") (.string "cd") rfl
    internerWF_empty
  simpa [c8AddClaim, Memory.stringIntern, StringInterner.intern,
    List.lookup, c8state] using h

/-- The duplicate-declaration scan finds nothing when the name is fresh. -/
theorem locals_scan_false (ls : List CLocal) (p : CLocal → Bool) (n : String)
    (hnew : ∀ l ∈ ls, l.name ≠ n) :
    ((ls.reverse.takeWhile p).any fun l => l.name == n) = false := by
  rw [List.any_eq_false]
  intro l hl
  have hmem : l ∈ ls :=
    List.mem_reverse.mp ((List.takeWhile_sublist p).mem hl)
  simp [hnew l hmem]

/-- One `var NAME;` inside a depth-1 scope with a fresh name and room in the
locals list: the local is appended (declared, then marked Initialized at
depth 1), one `Nil` byte is emitted, and nothing else changes. -/
theorem varDeclBare_step (st : CState) (n : String)
    (hsd : st.scopeDepth = 1) (hp : st.panicMode = false)
    (hnew : ∀ l ∈ st.locals, l.name ≠ n)
    (hlen : st.locals.length < 255) :
    compileStmt st (.varDeclBare n) =
      { st with
          locals := st.locals ++ [⟨n, .inited 1⟩],
          chunk := st.chunk.write OpCode.nilOp.toByte 0 } := by
  obtain ⟨ls, sd, ch, mem, errs, pm⟩ := st
  simp only at hsd hp hnew hlen
  subst hsd
  subst hp
  have hne : ls.length ≠ 255 := Nat.ne_of_lt hlen
  simp [compileStmt, CState.parseVariable, CState.declareVariable,
    CState.addLocal, CState.defineVariable, CState.markInited,
    CState.emitOpCode, CState.emitByte,
    locals_scan_false ls _ n hnew, hne,
    List.getLast?_concat, List.dropLast_concat]

/-- One `var NAME;` inside a depth-1 scope with a fresh name but a full
locals list (255 entries): `add_local` refuses, reporting
"Too many local variables in function". -/
theorem varDeclBare_overflow (st : CState) (n : String)
    (hsd : st.scopeDepth = 1) (hp : st.panicMode = false)
    (hnew : ∀ l ∈ st.locals, l.name ≠ n)
    (hlen : st.locals.length = 255) :
    (compileStmt st (.varDeclBare n)).errors =
      st.errors ++ ["Too many local variables in function"] := by
  obtain ⟨ls, sd, ch, mem, errs, pm⟩ := st
  simp only at hsd hp hnew hlen
  subst hsd
  subst hp
  simp [compileStmt, CState.parseVariable, CState.declareVariable,
    CState.addLocal, CState.error, CState.defineVariable, CState.markInited,
    CState.emitOpCode, CState.emitByte,
    locals_scan_false ls _ n hnew, hlen]
  cases hgl : ls.getLast? <;> simp [hgl]

/-- `popLocals` only emits bytes and shrinks the locals list. -/
theorem popLocals_fields (k : Nat) : ∀ st : CState,
    (CState.popLocals k st).errors = st.errors ∧
    (CState.popLocals k st).panicMode = st.panicMode ∧
    (CState.popLocals k st).scopeDepth = st.scopeDepth := by
  induction k with
  | zero => exact fun st => ⟨rfl, rfl, rfl⟩
  | succ m ih =>
      intro st
      simpa [CState.popLocals, CState.emitOpCode, CState.emitByte]
        using ih _

/-- `end_scope` neither reports errors nor touches `panic_mode`. -/
theorem endScope_fields (st : CState) :
    st.endScope.errors = st.errors ∧
    st.endScope.panicMode = st.panicMode := by
  unfold CState.endScope
  obtain ⟨h1, h2, h3⟩ := popLocals_fields
    ((st.locals.reverse.takeWhile fun l =>
        match l.depth with
        | .uninit => true
        | .inited d => decide (d ≥ st.scopeDepth)).length)
    { st with scopeDepth := st.scopeDepth - 1 }
  exact ⟨h1, h2⟩

theorem compileBlock_ofList_append (xs ys : List Stmt) : ∀ st : CState,
    compileBlock st (StmtList.ofList (xs ++ ys)) =
      compileBlock (compileBlock st (StmtList.ofList xs))
        (StmtList.ofList ys) := by
  induction xs with
  | nil => intro st; rfl
  | cons x rest ih =>
      intro st
      simp [StmtList.ofList, compileBlock, ih]

theorem compileBlock_bareDecls_append (xs ys : List String) (st : CState) :
    compileBlock st (bareDecls (xs ++ ys)) =
      compileBlock (compileBlock st (bareDecls xs)) (bareDecls ys) := by
  simp [bareDecls, List.map_append, compileBlock_ofList_append]

/-- Compiling a run of `var NAME;` declarations with pairwise-distinct fresh
names inside a depth-1 scope, with enough room: no errors, and each name is
appended as an Initialized depth-1 local in order. -/
theorem bareDecls_ok (names : List String) : ∀ st : CState,
    st.scopeDepth = 1 → st.panicMode = false → names.Nodup →
    (∀ n ∈ names, ∀ l ∈ st.locals, l.name ≠ n) →
    st.locals.length + names.length ≤ 255 →
    (compileBlock st (bareDecls names)).errors = st.errors ∧
    (compileBlock st (bareDecls names)).locals =
      st.locals ++ names.map (fun n => ⟨n, .inited 1⟩) ∧
    (compileBlock st (bareDecls names)).scopeDepth = 1 ∧
    (compileBlock st (bareDecls names)).panicMode = false := by
  induction names with
  | nil =>
      intro st h1 h2 _ _ _
      simp [bareDecls, StmtList.ofList, compileBlock, h1, h2]
  | cons n rest ih =>
      intro st hsd hp hnd hnew hlen
      have hstep := varDeclBare_step st n hsd hp
        (fun l hl => hnew n (List.mem_cons_self n rest) l hl)
        (by simp at hlen; omega)
      have hrest := ih { st with
          locals := st.locals ++ [⟨n, .inited 1⟩],
          chunk := st.chunk.write OpCode.nilOp.toByte 0 }
        (by simpa using hsd) (by simpa using hp)
        ((List.nodup_cons.mp hnd).2)
        (by
          intro m hm l hl
          simp only [List.mem_append, List.mem_singleton] at hl
          rcases hl with hl | hl
          · exact hnew m (List.mem_cons_of_mem n hm) l hl
          · subst hl
            intro he
            exact (List.nodup_cons.mp hnd).1 ((show n = m from he) ▸ hm))
        (by simp at hlen ⊢; omega)
      have hblock : compileBlock st (bareDecls (n :: rest)) =
          compileBlock { st with
              locals := st.locals ++ [⟨n, .inited 1⟩],
              chunk := st.chunk.write OpCode.nilOp.toByte 0 }
            (bareDecls rest) := by
        simp [bareDecls, StmtList.ofList, compileBlock, hstep, hp]
      rw [hblock]
      refine ⟨hrest.1, ?_, hrest.2.2.1, hrest.2.2.2⟩
      rw [hrest.2.1]
      simp

theorem compileBlock_nil (st : CState) : compileBlock st .nil = st := rfl

theorem compileBlock_cons (st : CState) (s : Stmt) (r : StmtList) :
    compileBlock st (.cons s r) =
      compileBlock
        (if (compileStmt st s).panicMode then
          { compileStmt st s with panicMode := false }
        else compileStmt st s) r := rfl

theorem c5names_nodup : c5names.Nodup := by
  refine List.Nodup.map_on ?_ (List.nodup_range 256)
  intro i hi j hj h
  rw [List.mem_range] at hi hj
  have hc : Char.ofNat (65 + i) = Char.ofNat (65 + j) := by
    have hd := congrArg String.data h
    simpa [String.singleton] using hd
  have hvi : (65 + i).isValidChar := Or.inl (by omega)
  have hvj : (65 + j).isValidChar := Or.inl (by omega)
  have h1 : (Char.ofNat (65 + i)).toNat = 65 + i := by
    simp only [Char.ofNat, hvi, dite_true, dif_pos]
    rfl
  have h2 : (Char.ofNat (65 + j)).toNat = 65 + j := by
    simp only [Char.ofNat, hvj, dite_true, dif_pos]
    rfl
  have h3 := h1.symm.trans ((congrArg Char.toNat hc).trans h2)
  omega

theorem c5names_length : c5names.length = 256 := by
  unfold c5names
  rw [List.length_map, List.length_range]

theorem emit_errors (st : CState) (op : OpCode) :
    (st.emitOpCode op).errors = st.errors := rfl

/-- `scriptCompile` only adds the trailing `Nil, Return` after the
declarations of the program, so its error list is that of the declaration run
from the initial script state. -/
theorem scriptCompile_errors (prog : StmtList) :
    (scriptCompile prog).errors =
      (compileBlock
        ⟨[], 0, Chunk.new, (Memory.new.newFunction "<script>").2, [], false⟩
        prog).errors := rfl

theorem compileBlock_cons_errors (st : CState) (s : Stmt) :
    (compileBlock st (.cons s .nil)).errors = (compileStmt st s).errors := by
  rw [compileBlock_cons, compileBlock_nil]
  by_cases hpm : (compileStmt st s).panicMode
  · rw [if_pos hpm]
  · rw [if_neg hpm]

set_option maxHeartbeats 2000000 in
/-- Claim C5 counterexample: a script whose single block declares 256 distinct
locals (`{ var A; var B; … }`) does *not* compile cleanly — the 256th
declaration already reports "Too many local variables in function",
because `add_local` refuses once the locals list holds 255 entries. -/
theorem c5_256_locals_compile_error :
    (scriptCompile (.cons (.block (bareDecls c5names)) .nil)).errors =
      ["Too many local variables in function"] := by
  have hnd := c5names_nodup
  have hlen := c5names_length
  have hsplit : c5names.take 255 ++ c5names.drop 255 = c5names :=
    List.take_append_drop 255 c5names
  obtain ⟨m, hm⟩ : ∃ m, c5names.drop 255 = [m] :=
    List.length_eq_one.mp (by rw [List.length_drop, hlen])
  have hdisj : (c5names.take 255).Disjoint (c5names.drop 255) :=
    (List.nodup_append.mp (hsplit.symm ▸ hnd)).2.2
  set stA : CState :=
    { locals := [], scopeDepth := 1, chunk := Chunk.new,
      memory := (Memory.new.newFunction "<script>").2, errors := [],
      panicMode := false } with hstA
  obtain ⟨hBerr, hBloc, hBsd, hBpm⟩ := bareDecls_ok (c5names.take 255) stA
    rfl rfl (hnd.sublist (List.take_sublist 255 c5names))
    (by intro n _ l hl; simp [hstA] at hl)
    (by simp [hstA, List.length_take, hlen])
  set B := compileBlock stA (bareDecls (c5names.take 255)) with hB
  have hBlen : B.locals.length = 255 := by
    rw [hBloc]
    simp [hstA, List.length_take, hlen]
  have hBnew : ∀ l ∈ B.locals, l.name ≠ m := by
    rw [hBloc]
    intro l hl
    simp only [hstA, List.nil_append, List.mem_map] at hl
    obtain ⟨a, ha, rfl⟩ := hl
    intro he
    exact hdisj ha (by rw [hm]; exact List.mem_singleton.mpr he)
  have hover := varDeclBare_overflow B m hBsd hBpm hBnew hBlen
  have hone : bareDecls [m] = .cons (.varDeclBare m) .nil := rfl
  have hC : (compileBlock stA
      (bareDecls (c5names.take 255 ++ c5names.drop 255))).errors =
      ["Too many local variables in function"] := by
    rw [compileBlock_bareDecls_append, ← hB, hm, hone,
      compileBlock_cons_errors, hover, hBerr]
    simp [hstA]
  rw [hsplit] at hC
  have hbegin : (⟨[], 0, Chunk.new,
      (Memory.new.newFunction "<script>").2, [], false⟩ : CState).beginScope
      = stA := by
    rw [hstA]
    rfl
  have hstmt : (compileStmt
        ⟨[], 0, Chunk.new, (Memory.new.newFunction "<script>").2, [], false⟩
        (.block (bareDecls c5names))).errors =
      ((compileBlock stA (bareDecls c5names)).endScope).errors := by
    simp only [compileStmt]
    rw [hbegin]
  exact (scriptCompile_errors _).trans ((compileBlock_cons_errors _ _).trans
    (hstmt.trans ((endScope_fields _).1.trans hC)))

set_option maxHeartbeats 2000000 in
/-- Claim C5, amended: `add_local` caps the locals list at 255 entries: with 255
entries already present it reports "Too many local variables in function"
(suppressed under panic mode) and leaves the list unchanged; with fewer it
appends the new Uninitialized local.  A script block declaring 255 distinct
locals therefore compiles with no error (and, the cap being on the list
length, the slot-0 placeholder of a function body counts toward it). -/
theorem c5_locals_cap_255 (st : CState) (name : String) :
    ((st.addLocal name).locals =
      if st.locals.length = 255 then st.locals
      else st.locals ++ [⟨name, .uninit⟩]) ∧
    ((st.addLocal name).errors =
      st.errors ++
        (if st.locals.length = 255 ∧ st.panicMode = false then
          ["Too many local variables in function"] else [])) ∧
    (scriptCompile
      (.cons (.block (bareDecls (c5names.take 255))) .nil)).errors = [] := by
  refine ⟨?_, ?_, ?_⟩
  · unfold CState.addLocal CState.error
    by_cases h : st.locals.length = 255 <;> by_cases hp : st.panicMode <;>
      simp [h, hp]
  · unfold CState.addLocal CState.error
    by_cases h : st.locals.length = 255 <;> by_cases hp : st.panicMode <;>
      simp [h, hp]
  · have hnd := c5names_nodup
    have hlen := c5names_length
    set stA : CState :=
      { locals := [], scopeDepth := 1, chunk := Chunk.new,
        memory := (Memory.new.newFunction "<script>").2, errors := [],
        panicMode := false } with hstA
    obtain ⟨hBerr, _, _, _⟩ := bareDecls_ok (c5names.take 255) stA
      rfl rfl (hnd.sublist (List.take_sublist 255 c5names))
      (by intro n _ l hl; simp [hstA] at hl)
      (by simp [hstA, List.length_take, hlen])
    have hbegin : (⟨[], 0, Chunk.new,
        (Memory.new.newFunction "<script>").2, [], false⟩ : CState).beginScope
        = stA := by
      rw [hstA]
      rfl
    have hstmt : (compileStmt
          ⟨[], 0, Chunk.new, (Memory.new.newFunction "<script>").2, [],
            false⟩
          (.block (bareDecls (c5names.take 255)))).errors =
        ((compileBlock stA
          (bareDecls (c5names.take 255))).endScope).errors := by
      simp only [compileStmt]
      rw [hbegin]
    refine (scriptCompile_errors _).trans
      ((compileBlock_cons_errors _ _).trans
        (hstmt.trans ((endScope_fields _).1.trans ?_)))
    rw [hBerr, hstA]

end Rlox
